import Mathlib

/-!
Verification of the GNA accelerator runtime core: capability-validated
transform construction (affine and pooling variants), kernel dispatch,
the Windows driver interface's memory-map protocol, and the AVX2
recurrent kernel.  Definitions are shallow embeddings of the C++
sources; exceptions become `Except GnaStatus`.
-/

namespace Gna

/-- Reduction of `Except` bind on a success value (do-notation sequencing). -/
@[simp] theorem ok_bind {ε α β : Type} (a : α) (f : α → Except ε β) :
    (Except.ok a : Except ε α) >>= f = f a := rfl

/-- Reduction of `Except` bind on an error value (do-notation sequencing). -/
@[simp] theorem error_bind {ε α β : Type} (e : ε) (f : α → Except ε β) :
    (Except.error e : Except ε α) >>= f = Except.error e := rfl

/-- Status codes (`Gna2Status`) that the modelled code paths can raise. -/
inductive GnaStatus where
  | activeListIndicesInvalid
  | modelConfigurationInvalid
  | notImplemented
  | cnnErrorPoolSize
  | cnnErrorPoolStride
  | cnnErrorPoolType
  | xnnErrorLyrOperation
  | xnnErrorLyrCfg
  | identifierInvalid
  | memoryMapError
  | stdOutOfRange
  deriving DecidableEq, Repr

/-- Element types from `Gna2DataType` that the affine paths inspect. -/
inductive Gna2DataType where
  | int8
  | int16
  | int32
  | compoundBias
  deriving DecidableEq, Repr

/-- Modelled from the spec: `Expect::InRange(value, min, max, status)` - per
spec section 8 the low end rejects only `value == 0` when `min == 1`, so the
range is the inclusive interval `[min, max]`; outside it the given status is
thrown. -/
def expectInRange (value lo hi : Nat) (status : GnaStatus) : Except GnaStatus Unit :=
  if lo ≤ value ∧ value ≤ hi then .ok () else .error status

/-- Modelled from the spec: `Expect::InSet(value, set, status)` throws `status`
when `value` is not a member of the listed set. -/
def expectInSet {α : Type} [DecidableEq α] (value : α) (set : List α)
    (status : GnaStatus) : Except GnaStatus Unit :=
  if value ∈ set then .ok () else .error status

/-- Source `AffineFunctionSingle::ValidateActiveList`: the index count must lie in
`[1, Output->at(GNA_DIM_H)]` and the bias mode type must be one of
`{Gna2DataTypeInt32, Gna2DataTypeCompoundBias}`. -/
def ValidateActiveList (indicesCount outputRowCount : Nat)
    (biasType : Gna2DataType) : Except GnaStatus Unit := do
  expectInRange indicesCount 1 outputRowCount .activeListIndicesInvalid
  expectInSet biasType [.int32, .compoundBias] .modelConfigurationInvalid

end Gna

namespace Gna

/-- Acceleration modes: the software reference plus vectorized backends. -/
inductive AccelMode where
  | generic
  | sse4
  | avx1
  | avx2
  deriving DecidableEq, Repr

/-- An `ActiveList` as passed through `LayerConfiguration`: the index buffer is
abstracted to its contents. -/
structure ActiveList where
  indices : List Nat
  indicesCount : Nat
  deriving DecidableEq, Repr

/-- Which kernel entry point `AffineFunctionSingle::Compute` invoked, with the
arguments that vary per call: the active-list variant receives the
`AffineConfigAl{indices, indicesCount}` built from the layer configuration. -/
inductive KernelInvocation where
  | plain (entry : Nat)
  | activeListVariant (entry : Nat) (indices : List Nat) (indicesCount : Nat)
  deriving DecidableEq, Repr

/-- Source `AffineFunctionSingle::Compute`: with an active list configured the
`kernelsAl` map is consulted, otherwise `kernels`; `map.at(accel)` throwing
`std::out_of_range` is caught and re-raised as
`GnaException(Gna2StatusNotImplemented)`. `kernels`/`kernelsAl` are the two
resolved kernel maps, each a partial map from acceleration mode to an entry
point (abstracted to a numeric id). -/
def AffineFunctionSingleCompute (kernels kernelsAl : AccelMode → Option Nat)
    (accel : AccelMode) (actList : Option ActiveList) :
    Except GnaStatus KernelInvocation :=
  match actList with
  | some al =>
    match kernelsAl accel with
    | some entry => .ok (.activeListVariant entry al.indices al.indicesCount)
    | none => .error .notImplemented
  | none =>
    match kernels accel with
    | some entry => .ok (.plain entry)
    | none => .error .notImplemented

end Gna

namespace Gna

/-! ### Pooling functions (`PoolingFunctions.cpp`) -/

/-- Named tensor dimensions (`gna_tensor_dim`), restricted to those the
pooling paths touch. -/
inductive Dim where
  | N
  | W
  | H
  | D
  deriving DecidableEq, Repr

/-- A `Shape`: an ordered mapping from named dimensions to extents. -/
abbrev Shape := List (Dim × Nat)

/-- Source `Shape::at(dim)`: lookup that throws `std::out_of_range` (modelled by
the dedicated status) when the dimension is absent. -/
def Shape.atE : Shape → Dim → Except GnaStatus Nat
  | [], _ => .error .stdOutOfRange
  | (d', v) :: rest, d => if d' = d then .ok v else Shape.atE rest d

/-- One dimension's capability limits: `{min, max, multiple-of, error}`. -/
structure RangeLimits where
  lo : Nat
  hi : Nat
  step : Nat
  err : GnaStatus
  deriving DecidableEq, Repr

/-- Type `ShapeLimits`: per-dimension range limits. -/
abbrev ShapeLimits := List (Dim × RangeLimits)

/-- Modelled from the spec: `ExpectShapeIsValid(shape, limits)` checks each
limited dimension's extent against its (min, max, multiple-of) constraint and
raises the limit's specific error code on violation (spec section 3,
"Capability Entry", and section 4.1). A dimension named by a limit must be
present in the shape. -/
def ExpectShapeIsValid (s : Shape) : ShapeLimits → Except GnaStatus Unit
  | [] => .ok ()
  | (d, lim) :: rest => do
    let v ← Shape.atE s d
    expectInRange v lim.lo lim.hi lim.err
    if v % lim.step = 0 then .ok () else .error lim.err
    ExpectShapeIsValid s rest

/-- Modelled from the spec: `ModelErrorHelper::ExecuteForModelItem(command,
item)` runs the command and attaches the failing item's context to any raised
model error; the status carried by the failure is preserved (spec section
4.1, closure-based error-context tagging). -/
def executeForModelItem {α : Type} (command : Except GnaStatus α) :
    Except GnaStatus α :=
  command

/-- Enumeration `nn_operation` values relevant here. -/
inductive NnOperation where
  | convolutional
  | affine
  | recurrent
  deriving DecidableEq, Repr

/-- Kernel-level pooling mode (`KernelPoolingMode`). -/
inductive KernelPoolingMode where
  | max
  | sum
  | nonePool
  deriving DecidableEq, Repr

/-- Source `PoolingFunction::windowLimits.at(INTEL_CONVOLUTIONAL)`: window in
`[CNN_POOL_SIZE_MIN, CNN_POOL_SIZE_MAX]` with multiple 1 and the pool-size
error code.  The two constants are defined outside this repository slice, so
they are kept as parameters `lo`, `hi`. -/
def windowLimits (lo hi : Nat) : ShapeLimits :=
  [(Dim.W, ⟨lo, hi, 1, .cnnErrorPoolSize⟩)]

/-- Source `PoolingFunction::strideLimits.at(INTEL_CONVOLUTIONAL)`: stride in
`[CNN_POOL_SIZE_MIN, CNN_POOL_SIZE_MAX]` with multiple 1 and the pool-stride
error code. -/
def strideLimits (lo hi : Nat) : ShapeLimits :=
  [(Dim.W, ⟨lo, hi, 1, .cnnErrorPoolStride⟩)]

/-- The two limit tables are keyed by operation; only `INTEL_CONVOLUTIONAL`
is present, any other key throws `std::out_of_range`. -/
def limitsAt (table : ShapeLimits) : NnOperation → Except GnaStatus ShapeLimits
  | .convolutional => .ok table
  | _ => .error .stdOutOfRange

/-- Unsigned 32-bit modulus. -/
def U32MOD : Nat := 2 ^ 32

/-- Helper: `uint32_t` subtraction of 1 (wraps at 0). -/
def u32sub1 (x : Nat) : Nat := (x + (U32MOD - 1)) % U32MOD

/-- The constructed pooling transform: mode, window/stride shapes, computed
output dimensions and `OutputsPerFilterCount`. -/
structure PoolingFunctionM where
  mode : KernelPoolingMode
  window : Shape
  stride : Shape
  outputDimensions : Shape
  outputsPerFilterCount : Nat

/-- The constructor's loop over the stride's dimensions: for each non-depth
dimension, `OutputDimensions[dim] = (inputDimensions.at(dim) - 1) / stride + 1`
(in `uint32_t` arithmetic), `OutputsPerFilterCount` is multiplied by it, and
`Expect::InRange(outDim, 1, inputDimensions.at(dim), Gna2StatusCnnErrorPoolSize)`
is checked. -/
def poolOutputLoop (inputDimensions : Shape) :
    List (Dim × Nat) → Shape → Nat → Except GnaStatus (Shape × Nat)
  | [], outDims, count => .ok (outDims, count)
  | (d, stepVal) :: rest, outDims, count =>
    if d = Dim.D then
      poolOutputLoop inputDimensions rest outDims count
    else do
      let inVal ← Shape.atE inputDimensions d
      let outDim := (u32sub1 inVal / stepVal + 1) % U32MOD
      expectInRange outDim 1 inVal .cnnErrorPoolSize
      poolOutputLoop inputDimensions rest (outDims ++ [(d, outDim)])
        (count * outDim % U32MOD)

/-- Source `PoolingFunction::PoolingFunction`: validates the mode against
`{Max, Sum}` (pool-type error), then the stride and the window against their
per-operation limit tables (pool-stride / pool-size error, in that order),
then computes the output dimensions: depth is copied from the input, each
other strided dimension gets `floor((input - 1) / stride) + 1`, range-checked
against `[1, input]`. -/
def PoolingFunctionNew (lo hi : Nat) (operation : NnOperation)
    (inputDimensions window stride : Shape) (mode : KernelPoolingMode) :
    Except GnaStatus PoolingFunctionM := do
  expectInSet mode [.max, .sum] .cnnErrorPoolType
  executeForModelItem (do
    let lims ← limitsAt (strideLimits lo hi) operation
    ExpectShapeIsValid stride lims)
  executeForModelItem (do
    let lims ← limitsAt (windowLimits lo hi) operation
    ExpectShapeIsValid window lims)
  let dIn ← Shape.atE inputDimensions .D
  let (outDims, count) ← poolOutputLoop inputDimensions stride [(Dim.D, dIn)] 1
  .ok { mode := mode, window := window, stride := stride,
        outputDimensions := outDims, outputsPerFilterCount := count }

/-- Enumeration `nn_pool_type` from the legacy flat descriptor. -/
inductive NnPoolType where
  | noPooling
  | maxPool
  | sumPool
  deriving DecidableEq, Repr

/-- Modelled from the spec: the `PoolingMode` wrapper converts a legacy
`nn_pool_type` to the kernel pooling mode (max to max, sum to sum). -/
def kernelModeOfNnPoolType : NnPoolType → KernelPoolingMode
  | .noPooling => .nonePool
  | .maxPool => .max
  | .sumPool => .sum

/-- The pooling-relevant fields of the legacy `nn_layer_conv` descriptor. -/
structure NnLayerConv where
  poolType : NnPoolType
  nPoolStride : Nat
  nPoolSize : Nat
  deriving DecidableEq, Repr

/-- Source `PoolingFunction::Create(void const*, ...)`, the legacy path: reads pool
type, stride and window from the flat CNN descriptor (any operation other
than `INTEL_CONVOLUTIONAL` is a layer-operation error), constructs a
`PoolingFunction` when pooling is enabled, and returns null (`none`) when the
type is `INTEL_NO_POOLING`. -/
def PoolingFunctionCreateLegacy (lo hi : Nat) (cnn : NnLayerConv)
    (inputDimensions : Shape) (operation : NnOperation) :
    Except GnaStatus (Option PoolingFunctionM) := do
  match operation with
  | .convolutional => do
    let window : Shape := [(Dim.W, cnn.nPoolSize)]
    let stride : Shape := [(Dim.W, cnn.nPoolStride)]
    if cnn.poolType ≠ .noPooling then do
      let pf ← PoolingFunctionNew lo hi operation inputDimensions window stride
        (kernelModeOfNnPoolType cnn.poolType)
      .ok (some pf)
    else
      .ok none
  | _ => .error .xnnErrorLyrOperation

/-- Enumeration `Gna2PoolingMode` values, including an out-of-enumeration value as it can
arrive from the C API. -/
inductive Gna2PoolingMode where
  | disabled
  | maxMode
  | sumMode
  | invalid (raw : Nat)
  deriving DecidableEq, Repr

/-- Modelled from the spec: the `PoolingMode` wrapper converts an API
`Gna2PoolingMode` to the kernel pooling mode. -/
def kernelModeOfApi : Gna2PoolingMode → KernelPoolingMode
  | .maxMode => .max
  | .sumMode => .sum
  | _ => .nonePool

/-- The pooling-relevant parameters of a `Gna2Operation` descriptor: each is
optional; `none` models an absent parameter.  Shapes arrive as single-`W`
`Gna2Shape` extents. -/
structure Gna2OperationPooling where
  poolingMode : Option Gna2PoolingMode
  poolingWindow : Option Nat
  poolingStride : Option Nat
  deriving DecidableEq, Repr

/-- Modelled from the spec: `ModelWrapper::ExpectParameterAvailable` raises a
model-configuration error when the parameter is absent from the descriptor. -/
def ExpectParameterAvailable {α : Type} (p : Option α) :
    Except GnaStatus Unit :=
  match p with
  | some _ => .ok ()
  | none => .error .modelConfigurationInvalid

/-- Modelled from the spec: `ModelWrapper::GetParameter` returns the
parameter, raising the model-configuration error when it is absent. -/
def GetParameter {α : Type} (p : Option α) : Except GnaStatus α :=
  match p with
  | some v => .ok v
  | none => .error .modelConfigurationInvalid

/-- Source `PoolingFunction::ExpectValid`: if the window or the stride parameter is
present then mode, window and stride must all be available. -/
def PoolingExpectValid (op : Gna2OperationPooling) : Except GnaStatus Unit :=
  if op.poolingWindow.isSome || op.poolingStride.isSome then do
    ExpectParameterAvailable op.poolingMode
    ExpectParameterAvailable op.poolingWindow
    ExpectParameterAvailable op.poolingStride
  else
    .ok ()

/-- Source `PoolingFunction::Create(Gna2Operation const&, ...)`, the structured
path: requires a convolutional operation, runs `ExpectValid`, resolves the
optional pooling mode with default `Disabled`; for max/sum it reads stride
and window parameters and constructs the pooling function; otherwise the
mode must equal `Disabled` (model-configuration error if not) and the result
is null (`none`). -/
def PoolingFunctionCreateApi (lo hi : Nat) (apiOperation : Gna2OperationPooling)
    (inputDimensions : Shape) (operation : NnOperation) :
    Except GnaStatus (Option PoolingFunctionM) := do
  if operation = .convolutional then .ok () else .error .xnnErrorLyrOperation
  PoolingExpectValid apiOperation
  let poolingMode := apiOperation.poolingMode.getD .disabled
  if poolingMode = .maxMode ∨ poolingMode = .sumMode then do
    let apiStride ← GetParameter apiOperation.poolingStride
    let strideShape : Shape := [(Dim.W, apiStride)]
    let apiWindow ← GetParameter apiOperation.poolingWindow
    let windowShape : Shape := [(Dim.W, apiWindow)]
    let pf ← PoolingFunctionNew lo hi operation inputDimensions windowShape
      strideShape (kernelModeOfApi poolingMode)
    .ok (some pf)
  else do
    executeForModelItem
      (expectInSet poolingMode [.disabled] .modelConfigurationInvalid)
    .ok none


end Gna


namespace Gna

/-! ### Affine transform operands (`AffineFunctions.cpp`) -/

/-- A `DataMode`: element type and element size. -/
structure DataMode where
  type : Gna2DataType
  size : Nat
  deriving DecidableEq, Repr

/-- A `Tensor`: shape plus data mode (the buffer pointer does not take part
in the operand round-trip claims). -/
structure Tensor where
  dims : Shape
  mode : DataMode
  deriving DecidableEq, Repr

/-- Operand index for the input tensor. -/
def InputOperandIndex : Nat := 0

/-- Operand index for the output tensor. -/
def OutputOperandIndex : Nat := 1

/-- Operand index for the weight tensor. -/
def WeightOperandIndex : Nat := 2

/-- Operand index for the bias tensor. -/
def BiasOperandIndex : Nat := 3

/-- Operand index for the activation-function segments tensor. -/
def PwlOperandIndex : Nat := 4

/-- Operand index for the multi-bias weight-scale-factor tensor. -/
def WeightScaleFactorOperandIndex : Nat := 5

/-- Modelled from the spec: `Transform::GetOperandIfExistOrThrow` (base
class, outside this slice) returns the held tensor, or throws the "not
present" layer-configuration error when the owning pointer is null. -/
def GetOperandIfExistOrThrow (t : Option Tensor) : Except GnaStatus Tensor :=
  match t with
  | some tensor => .ok tensor
  | none => .error .xnnErrorLyrCfg

/-- Modelled from the spec: `Transform::GetOperand` (base class, outside
this slice) exposes the input and output tensors by their roles and throws
the "not present" error for any other role. -/
def TransformGetOperand (input output : Tensor) (operandIndex : Nat) :
    Except GnaStatus Tensor :=
  if operandIndex = InputOperandIndex then .ok input
  else if operandIndex = OutputOperandIndex then .ok output
  else .error .xnnErrorLyrCfg

/-- The operand-relevant state of a constructed `AffineFunction`: the
`Weights` and `Biases` members (held through owning pointers). -/
structure AffineFunctionRecord where
  input : Tensor
  output : Tensor
  weights : Option Tensor
  biases : Option Tensor
  deriving DecidableEq, Repr

/-- Source `AffineFunction::GetOperand`: weights and biases by role, any
other role delegated to the base transform. -/
def AffineFunctionGetOperand (f : AffineFunctionRecord) (operandIndex : Nat) :
    Except GnaStatus Tensor :=
  if operandIndex = WeightOperandIndex then GetOperandIfExistOrThrow f.weights
  else if operandIndex = BiasOperandIndex then GetOperandIfExistOrThrow f.biases
  else TransformGetOperand f.input f.output operandIndex

/-- The operand-relevant state of a constructed `AffineFunctionMulti`: the
base members plus the optional `WeightScaleFactors` tensor. -/
structure AffineFunctionMultiRecord where
  base : AffineFunctionRecord
  weightScaleFactors : Option Tensor
  deriving DecidableEq, Repr

/-- Source `AffineFunctionMulti::GetOperand`: the weight-scale-factor role,
anything else delegated to `AffineFunction::GetOperand`. -/
def AffineFunctionMultiGetOperand (f : AffineFunctionMultiRecord)
    (operandIndex : Nat) : Except GnaStatus Tensor :=
  if operandIndex = WeightScaleFactorOperandIndex then
    GetOperandIfExistOrThrow f.weightScaleFactors
  else
    AffineFunctionGetOperand f.base operandIndex

/-- The operand tensors of an `OperationConfig` descriptor; a `none`
weight-scales entry models `Gna2TensorModeDisabled`. -/
structure OperationConfigM where
  weightsTensor : Tensor
  biasesTensor : Tensor
  weightScalesTensor : Option Tensor
  deriving DecidableEq, Repr

/-- Source `createAffineSingleFunction`, restricted to operand ownership:
the constructed transform holds weight and bias tensors built from the
descriptor operands.  Modelled from the spec for the part outside this
slice: `WeightTensor`/`BiasTensor` construction validates a descriptor
operand and carries its Shape and DataMode unchanged (spec section 3,
"Tensor"). -/
def createAffineSingleOperands (cfg : OperationConfigM)
    (input output : Tensor) : AffineFunctionRecord :=
  { input := input, output := output,
    weights := some cfg.weightsTensor, biases := some cfg.biasesTensor }

/-- Source `createAffineMultiFunction`, restricted to operand ownership: as
the single variant, plus the weight-scale tensor when its mode is not
disabled. -/
def createAffineMultiOperands (cfg : OperationConfigM)
    (input output : Tensor) : AffineFunctionMultiRecord :=
  { base := createAffineSingleOperands cfg input output,
    weightScaleFactors := cfg.weightScalesTensor }

end Gna

namespace Gna

/-! ### Windows driver interface (`WindowsDriverInterface.h`) -/

/-- Modelled from the spec: the retry loop of
`WindowsDriverInterface::MemoryMap` (implementation outside this slice; the
header declares the `WAIT_FOR_MAP_ITERATIONS` bound and the
`WAIT_FOR_MAP_MILLISECONDS` inter-attempt delay).  Registration of a buffer
not yet visible to the device is retried with a fixed delay per attempt;
`visible k` says whether the buffer has become device-visible by attempt
`k`.  `fuel` attempts remain; on success the attempt index is returned,
and exhausting the bound raises the "memory not mapped" error. -/
def memoryMapRetry (visible : Nat → Bool) : Nat → Nat → Except GnaStatus Nat
  | 0, _ => .error .memoryMapError
  | fuel + 1, attempt =>
    if visible attempt then .ok attempt
    else memoryMapRetry visible fuel (attempt + 1)

/-- The memory-mapping table `memoryMapRequests`: mapping id to its
in-flight completion primitive (abstracted to an id). -/
abbrev MemoryMapTable := List (Nat × Nat)

/-- Modelled from the spec: `WindowsDriverInterface::MemoryUnmap(memoryId)`
(implementation outside this slice) removes the id's entry from the
memory-mapping table; an unknown or already-removed id is an idempotent
no-op, and the call raises no error either way (spec sections 4.4 and 8). -/
def MemoryUnmap (table : MemoryMapTable) (memoryId : Nat) :
    Except GnaStatus MemoryMapTable :=
  .ok (table.filter (fun e => e.1 != memoryId))

/-- A Windows `HANDLE` value: the `INVALID_HANDLE_VALUE` sentinel or a real
handle. -/
inductive Handle where
  | invalidHandleValue
  | valid (h : Nat)
  deriving DecidableEq, Repr

/-- Modelled from the spec: `Expect::Equal(expected, actual, status)` throws
`status` unless the two values are equal. -/
def expectEqual {α : Type} [DecidableEq α] (a b : α) (status : GnaStatus) :
    Except GnaStatus Unit :=
  if a = b then .ok () else .error status

/-- Source `WinHandle()`: the default constructor holds the invalid
sentinel. -/
def WinHandleInit : Handle := .invalidHandleValue

/-- Source `WinHandle::Set(handle)`: `Expect::Equal(INVALID_HANDLE_VALUE,
deviceHandle, Gna2StatusIdentifierInvalid)`, then store the new handle.
Returns the updated held value. -/
def WinHandleSet (deviceHandle handle : Handle) : Except GnaStatus Handle := do
  expectEqual Handle.invalidHandleValue deviceHandle .identifierInvalid
  .ok handle

/-- Source `~WinHandle()`: calls `CloseHandle` exactly when the held value
is not the invalid sentinel, then resets the member to the sentinel.
Returns the list of `CloseHandle` calls made and the final member value. -/
def WinHandleDestroy (deviceHandle : Handle) : List Handle × Handle :=
  if deviceHandle ≠ Handle.invalidHandleValue then
    ([deviceHandle], Handle.invalidHandleValue)
  else
    ([], deviceHandle)

/-- Runs a sequence of `Set` calls against the wrapper state: a failing call
throws to the caller but leaves the held handle unchanged. -/
def WinHandleRunSets (state : Handle) : List Handle → Handle
  | [] => state
  | h :: rest =>
    match WinHandleSet state h with
    | .ok newState => WinHandleRunSets newState rest
    | .error _ => WinHandleRunSets state rest

end Gna

namespace Gna

/-! ### AVX2 recurrent kernel (`igemv8_avx2.cpp`) -/

/-- Signed 32-bit wrap-around: the value congruent mod `2^32` lying in
`[-2^31, 2^31)`. -/
def wrap32 (x : Int) : Int := (x + 2 ^ 31) % 2 ^ 32 - 2 ^ 31

/-- The kernel-relevant fields of `RecurrentConfig`: the element counts, the
int16 input and feedback buffers, the flat int8 weight array `weights1B`,
and the compound biases (`nn_bias_c`: bias value and multiplier per output).
Buffers are modelled as functions from element index to value. -/
structure RecurrentTransform where
  inputElementCount : Nat
  outputElementCount : Nat
  inputs : Nat → Int
  feedbackBuffer : Nat → Int
  weights1B : Nat → Int
  biasBias : Nat → Int
  biasMultiplier : Nat → Int

/-- One 32-bit lane of `_mm256_madd_epi16`: the two adjacent 16-bit products
are summed with 32-bit wrap-around. -/
def maddLane (x0 w0 x1 w1 : Int) : Int := wrap32 (x0 * w0 + x1 * w1)

/-- One 16-element step of the vectorized loops:
`v1 = _mm256_madd_epi16(v0, v1); v2 = _mm256_add_epi32(v1, v2)`, where `v0`
holds the 16 int16 data values at `xOff` and `v1` the 16 int8 weights at
`wOff` sign-extended by `_mm256_cvtepi8_epi16`.  Lane `j` accumulates
elements `2j` and `2j+1`; `add_epi32` wraps at 32 bits. -/
def vecBlockStep (x w : Nat → Int) (xOff wOff : Nat) (acc : Fin 8 → Int)
    (j : Fin 8) : Int :=
  wrap32 (acc j +
    maddLane (x (xOff + 2 * j.val)) (w (wOff + 2 * j.val))
      (x (xOff + 2 * j.val + 1)) (w (wOff + 2 * j.val + 1)))

/-- The vectorized inner loop: processes `blocks` 16-element blocks in
order, starting from accumulator `acc` (the feedback loop continues on the
accumulator left by the input loop). -/
def vecLoop (x w : Nat → Int) (xOff wOff : Nat) (acc : Fin 8 → Int) :
    Nat → Fin 8 → Int
  | 0 => acc
  | b + 1 =>
    vecBlockStep x w (xOff + 16 * b) (wOff + 16 * b) (vecLoop x w xOff wOff acc b)

/-- Modelled from the spec: the `vec_sum` helper (in the kernel support
headers, outside this slice) horizontally sums the eight 32-bit lanes of
`v2` into one int32; the adds wrap at 32 bits. -/
def vec_sum (acc : Fin 8 → Int) : Int := wrap32 (∑ j : Fin 8, acc j)

/-- The scalar remainder loop `*output += *input++ * *weight++`, run `n`
times from the given offsets; each accumulation into the int32 output
wraps. -/
def scalarLoop (x w : Nat → Int) : Nat → Nat → Nat → Int → Int
  | _, _, 0, out => out
  | xOff, wOff, n + 1, out =>
    scalarLoop x w (xOff + 1) (wOff + 1) n (wrap32 (out + x xOff * w wOff))

/-- One iteration of the outer loop of `RecurrentKernelImpl1B` (one output
element): the vectorized loop over the 16-aligned prefix of the input
against the weight row at `wOff`, the vectorized loop over the 16-aligned
prefix of the feedback against the feedback-weight row at `w2Off`
(continuing the same accumulator `v2`), `vec_sum` into the output, the two
scalar remainder loops, then
`*output = *output * bias->multiplier + bias->bias` in wrapping 32-bit
arithmetic. -/
def recurrentIteration (cfg : RecurrentTransform) (wOff w2Off i : Nat) : Int :=
  let K := cfg.inputElementCount
  let M := cfg.outputElementCount
  let lanesIn := vecLoop cfg.inputs cfg.weights1B 0 wOff (fun _ => 0) (K / 16)
  let lanes := vecLoop cfg.feedbackBuffer cfg.weights1B 0 w2Off lanesIn (M / 16)
  let out0 := vec_sum lanes
  let out1 := scalarLoop cfg.inputs cfg.weights1B (K - K % 16)
    (wOff + (K - K % 16)) (K % 16) out0
  let out2 := scalarLoop cfg.feedbackBuffer cfg.weights1B (M - M % 16)
    (w2Off + (M - M % 16)) (M % 16) out1
  wrap32 (out2 * cfg.biasMultiplier i + cfg.biasBias i)

/-- The outer loop over the compound biases: `weight` starts at offset 0 and
`weight2` at offset `inputElementCount` of the flat weight array; each
iteration advances both by `LDA = outputElementCount + inputElementCount`
(partly inside the inner loops, the rest by the trailing `LDA - count`
adjustments).  Produces the outputs in order. -/
def recurrentOuterLoop (cfg : RecurrentTransform) :
    Nat → Nat → Nat → Nat → List Int
  | 0, _, _, _ => []
  | n + 1, wOff, w2Off, i =>
    recurrentIteration cfg wOff w2Off i ::
      recurrentOuterLoop cfg n
        (wOff + (cfg.outputElementCount + cfg.inputElementCount))
        (w2Off + (cfg.outputElementCount + cfg.inputElementCount))
        (i + 1)

/-- Source `RecurrentKernelImpl1B`: one output per compound bias. -/
def RecurrentKernelImpl1B (cfg : RecurrentTransform) : List Int :=
  recurrentOuterLoop cfg cfg.outputElementCount 0 cfg.inputElementCount 0

/-- Exact integer dot product of `n` elements from the given offsets. -/
def dotProd (x w : Nat → Int) (xOff wOff n : Nat) : Int :=
  ∑ t in Finset.range n, x (xOff + t) * w (wOff + t)

/-- A small concrete recurrent transform exercising both the vectorized
blocks and the scalar remainders (17 = 16 + 1 inputs, 2 outputs). -/
def exampleRecurrentTransform : RecurrentTransform :=
  { inputElementCount := 17, outputElementCount := 2,
    inputs := fun t => (t : Int) + 1,
    feedbackBuffer := fun t => (t : Int) - 3,
    weights1B := fun t => (t : Int) % 100 - 50,
    biasBias := fun i => (i : Int) + 9,
    biasMultiplier := fun i => (i : Int) + 2 }

/-- The naive reference computation of the claim: output `i` equals
`(dot(input, weightRow_i) + dot(feedback, feedbackWeightRow_i)) *
bias[i].multiplier + bias[i].bias` in wrapping 32-bit arithmetic, with
weight row `i` at offset `i * LDA` and feedback-weight row `i` at offset
`inputElementCount + i * LDA` of the flat weight array, where
`LDA = outputElementCount + inputElementCount`. -/
def recurrentReference (cfg : RecurrentTransform) (i : Nat) : Int :=
  let K := cfg.inputElementCount
  let M := cfg.outputElementCount
  let LDA := M + K
  wrap32 ((dotProd cfg.inputs cfg.weights1B 0 (i * LDA) K +
      dotProd cfg.feedbackBuffer cfg.weights1B 0 (K + i * LDA) M) *
    cfg.biasMultiplier i + cfg.biasBias i)

end Gna

namespace Gna

/-! ### Helper lemmas shared by the claim proofs -/

/-- Lemma: `expectInRange` succeeds when the value is inside the bounds. -/
theorem expectInRange_ok {v lo hi : Nat} {st : GnaStatus}
    (h1 : lo ≤ v) (h2 : v ≤ hi) : expectInRange v lo hi st = .ok () := by
  simp [expectInRange, h1, h2]

/-- Lemma: `expectInRange` fails with its status when the value is out of bounds. -/
theorem expectInRange_err {v lo hi : Nat} {st : GnaStatus}
    (h : ¬ (lo ≤ v ∧ v ≤ hi)) : expectInRange v lo hi st = .error st := by
  simp [expectInRange, h]

/-- Lemma: `expectInSet` succeeds on a member of the set. -/
theorem expectInSet_ok {α : Type} [DecidableEq α] {v : α} {set : List α}
    {st : GnaStatus} (h : v ∈ set) : expectInSet v set st = .ok () := by
  simp [expectInSet, h]

/-- Lemma: `expectInSet` fails with its status on a non-member. -/
theorem expectInSet_err {α : Type} [DecidableEq α] {v : α} {set : List α}
    {st : GnaStatus} (h : v ∉ set) : expectInSet v set st = .error st := by
  simp [expectInSet, h]

/-- Lemma: `Shape::at` on the head dimension. -/
theorem atE_head (d : Dim) (v : Nat) (rest : Shape) :
    Shape.atE ((d, v) :: rest) d = .ok v := by
  simp [Shape.atE]

/-- Lemma: `Shape::at` skips a non-matching head dimension. -/
theorem atE_tail {d' d : Dim} (h : d' ≠ d) (v : Nat) (rest : Shape) :
    Shape.atE ((d', v) :: rest) d = Shape.atE rest d := by
  simp [Shape.atE, h]

/-- A single-dimension shape-limit check succeeds when the extent is present
and inside the bounds (with a multiple-of-1 constraint). -/
theorem shapeValid_single_ok {s : Shape} {d : Dim} {lo hi v : Nat}
    {st : GnaStatus} (hat : Shape.atE s d = .ok v) (h1 : lo ≤ v)
    (h2 : v ≤ hi) :
    ExpectShapeIsValid s [(d, ⟨lo, hi, 1, st⟩)] = .ok () := by
  rw [ExpectShapeIsValid, hat, ok_bind, expectInRange_ok h1 h2, ok_bind]
  simp [ExpectShapeIsValid, Nat.mod_one]

/-- A single-dimension shape-limit check fails with the limit's error code
when the extent is out of bounds. -/
theorem shapeValid_single_err {s : Shape} {d : Dim} {lo hi v : Nat}
    {st : GnaStatus} (hat : Shape.atE s d = .ok v)
    (h : ¬ (lo ≤ v ∧ v ≤ hi)) :
    ExpectShapeIsValid s [(d, ⟨lo, hi, 1, st⟩)] = .error st := by
  rw [ExpectShapeIsValid, hat, ok_bind, expectInRange_err h, error_bind]

/-- C1: `ValidateActiveList` passes exactly when the index count lies in
`[1, outputRowCount]` and the bias type is int32 or compound-bias; an index
count of 0 or above the output row count fails with the active-list status,
and an in-range count with any other bias type fails with the
model-configuration status.  (Of the spec's two phrasings of the low bound,
the code's `Expect::InRange(count, 1, H)` keeps `count == 1` legal.) -/
theorem C1_validate_active_list (indicesCount outputRowCount : Nat)
    (biasType : Gna2DataType) :
    (ValidateActiveList indicesCount outputRowCount biasType = .ok () ↔
      (1 ≤ indicesCount ∧ indicesCount ≤ outputRowCount ∧
        (biasType = .int32 ∨ biasType = .compoundBias))) ∧
    ((indicesCount = 0 ∨ outputRowCount < indicesCount) →
      ValidateActiveList indicesCount outputRowCount biasType =
        .error .activeListIndicesInvalid) ∧
    ((1 ≤ indicesCount ∧ indicesCount ≤ outputRowCount ∧
        biasType ≠ .int32 ∧ biasType ≠ .compoundBias) →
      ValidateActiveList indicesCount outputRowCount biasType =
        .error .modelConfigurationInvalid) := by
  unfold ValidateActiveList expectInRange expectInSet
  refine ⟨?_, ?_, ?_⟩
  · constructor
    · intro h
      by_cases h1 : 1 ≤ indicesCount ∧ indicesCount ≤ outputRowCount
      · by_cases h2 : biasType ∈ [Gna2DataType.int32, Gna2DataType.compoundBias]
        · exact ⟨h1.1, h1.2, by simpa using h2⟩
        · simp [h1, h2] at h
      · simp [h1] at h
    · rintro ⟨ha, hb, hc⟩
      have h1 : 1 ≤ indicesCount ∧ indicesCount ≤ outputRowCount := ⟨ha, hb⟩
      have h2 : biasType ∈ [Gna2DataType.int32, Gna2DataType.compoundBias] := by
        simpa using hc
      simp [h1, h2]
  · intro h
    have h1 : ¬ (1 ≤ indicesCount ∧ indicesCount ≤ outputRowCount) := by
      rcases h with h | h
      · omega
      · omega
    simp [h1]
  · rintro ⟨ha, hb, hc, hd⟩
    have h1 : 1 ≤ indicesCount ∧ indicesCount ≤ outputRowCount := ⟨ha, hb⟩
    have h2 : ¬ biasType ∈ [Gna2DataType.int32, Gna2DataType.compoundBias] := by
      simp [hc, hd]
    simp [h1, h2]

/-- Witness for C1 at concrete inputs. -/
theorem C1_validate_active_list_witness :
    ValidateActiveList 2 4 .int32 = .ok () ∧
    ValidateActiveList 0 4 .int32 = .error .activeListIndicesInvalid ∧
    ValidateActiveList 2 4 .int16 = .error .modelConfigurationInvalid := by
  refine ⟨?_, ?_, ?_⟩
  · exact (C1_validate_active_list 2 4 .int32).1.mpr (by decide)
  · exact (C1_validate_active_list 0 4 .int32).2.1 (by decide)
  · exact (C1_validate_active_list 2 4 .int16).2.2 (by decide)

/-- C4: `Compute` raises the fatal not-implemented status exactly on the
acceleration modes absent from the consulted kernel map, and otherwise
invokes the map's entry point - the active-list variant (with the configured
indices) when an active list is present, the plain variant otherwise. -/
theorem C4_compute_dispatch (kernels kernelsAl : AccelMode → Option Nat)
    (accel : AccelMode) :
    (∀ al : ActiveList, kernelsAl accel = none →
      AffineFunctionSingleCompute kernels kernelsAl accel (some al) =
        .error .notImplemented) ∧
    (∀ al : ActiveList, ∀ entry, kernelsAl accel = some entry →
      AffineFunctionSingleCompute kernels kernelsAl accel (some al) =
        .ok (.activeListVariant entry al.indices al.indicesCount)) ∧
    (kernels accel = none →
      AffineFunctionSingleCompute kernels kernelsAl accel none =
        .error .notImplemented) ∧
    (∀ entry, kernels accel = some entry →
      AffineFunctionSingleCompute kernels kernelsAl accel none =
        .ok (.plain entry)) := by
  refine ⟨?_, ?_, ?_, ?_⟩
  · intro al h; simp [AffineFunctionSingleCompute, h]
  · intro al entry h; simp [AffineFunctionSingleCompute, h]
  · intro h; simp [AffineFunctionSingleCompute, h]
  · intro entry h; simp [AffineFunctionSingleCompute, h]

/-- C2: with the pooling mode enabled and both window and stride inside the
`[CNN_POOL_SIZE_MIN, CNN_POOL_SIZE_MAX]` interval (`[lo, hi]`, `1 ≤ lo`),
construction succeeds and the non-depth output extent equals
`floor((input - 1) / stride) + 1`, which lies in `[1, input]`; a stride
outside the interval fails with the pool-stride error and a window outside it
(with a valid stride) fails with the pool-size error. -/
theorem C2_pooling_extents_and_limits (lo hi w s iw idep : Nat)
    (mode : KernelPoolingMode) (hmode : mode = .max ∨ mode = .sum)
    (hlo : 1 ≤ lo) (hiw : 1 ≤ iw) (hiwU : iw < U32MOD) :
    ((lo ≤ w ∧ w ≤ hi ∧ lo ≤ s ∧ s ≤ hi) →
      PoolingFunctionNew lo hi .convolutional [(Dim.W, iw), (Dim.D, idep)]
          [(Dim.W, w)] [(Dim.W, s)] mode =
        .ok { mode := mode, window := [(Dim.W, w)], stride := [(Dim.W, s)],
              outputDimensions := [(Dim.D, idep), (Dim.W, (iw - 1) / s + 1)],
              outputsPerFilterCount := (iw - 1) / s + 1 } ∧
      1 ≤ (iw - 1) / s + 1 ∧ (iw - 1) / s + 1 ≤ iw) ∧
    ((s < lo ∨ hi < s) →
      PoolingFunctionNew lo hi .convolutional [(Dim.W, iw), (Dim.D, idep)]
          [(Dim.W, w)] [(Dim.W, s)] mode = .error .cnnErrorPoolStride) ∧
    ((lo ≤ s ∧ s ≤ hi ∧ (w < lo ∨ hi < w)) →
      PoolingFunctionNew lo hi .convolutional [(Dim.W, iw), (Dim.D, idep)]
          [(Dim.W, w)] [(Dim.W, s)] mode = .error .cnnErrorPoolSize) := by
  have hm : mode ∈ [KernelPoolingMode.max, KernelPoolingMode.sum] := by
    rcases hmode with rfl | rfl <;> simp
  refine ⟨?_, ?_, ?_⟩
  · rintro ⟨hw1, hw2, hs1, hs2⟩
    have hs0 : 1 ≤ s := le_trans hlo hs1
    have hsub : u32sub1 iw = iw - 1 := by
      unfold u32sub1 U32MOD at *
      have h1 : iw + (2 ^ 32 - 1) = (iw - 1) + 2 ^ 32 := by omega
      rw [h1, Nat.add_mod_right]
      exact Nat.mod_eq_of_lt (by omega)
    have hdle : (iw - 1) / s ≤ iw - 1 := Nat.div_le_self _ _
    have hdiv : (iw - 1) / s + 1 ≤ iw := by omega
    have hmodeq : ((iw - 1) / s + 1) % U32MOD = (iw - 1) / s + 1 :=
      Nat.mod_eq_of_lt (by omega)
    refine ⟨?_, Nat.succ_le_succ (Nat.zero_le _), hdiv⟩
    simp only [PoolingFunctionNew, executeForModelItem, limitsAt, ok_bind]
    rw [expectInSet_ok hm, ok_bind]
    rw [strideLimits, shapeValid_single_ok (atE_head Dim.W s []) hs1 hs2,
      ok_bind]
    rw [windowLimits, shapeValid_single_ok (atE_head Dim.W w []) hw1 hw2,
      ok_bind]
    rw [atE_tail (by decide) iw [(Dim.D, idep)], atE_head, ok_bind]
    rw [poolOutputLoop, if_neg (by decide : ¬ (Dim.W = Dim.D))]
    rw [atE_head, ok_bind]
    simp only [hsub, hmodeq, one_mul]
    rw [expectInRange_ok (Nat.succ_le_succ (Nat.zero_le _)) hdiv, ok_bind]
    rw [poolOutputLoop]
    rfl
  · intro hs
    have hns : ¬ (lo ≤ s ∧ s ≤ hi) := by omega
    simp only [PoolingFunctionNew, executeForModelItem, limitsAt, ok_bind]
    rw [expectInSet_ok hm, ok_bind]
    rw [strideLimits, shapeValid_single_err (atE_head Dim.W s []) hns,
      error_bind]
  · rintro ⟨hs1, hs2, hw⟩
    have hnw : ¬ (lo ≤ w ∧ w ≤ hi) := by omega
    simp only [PoolingFunctionNew, executeForModelItem, limitsAt, ok_bind]
    rw [expectInSet_ok hm, ok_bind]
    rw [strideLimits, shapeValid_single_ok (atE_head Dim.W s []) hs1 hs2,
      ok_bind]
    rw [windowLimits, shapeValid_single_err (atE_head Dim.W w []) hnw,
      error_bind]

/-- Witness for C2 with `[lo, hi] = [1, 6]`, input extent 10, depth 3,
window 3: stride 2 succeeds with output extent 5, stride 7 fails with the
pool-stride error, and window 0 with stride 2 fails with the pool-size
error. -/
theorem C2_pooling_extents_and_limits_witness :
    PoolingFunctionNew 1 6 .convolutional [(Dim.W, 10), (Dim.D, 3)]
        [(Dim.W, 3)] [(Dim.W, 2)] .max =
      .ok { mode := .max, window := [(Dim.W, 3)], stride := [(Dim.W, 2)],
            outputDimensions := [(Dim.D, 3), (Dim.W, 5)],
            outputsPerFilterCount := 5 } ∧
    PoolingFunctionNew 1 6 .convolutional [(Dim.W, 10), (Dim.D, 3)]
        [(Dim.W, 3)] [(Dim.W, 7)] .max = .error .cnnErrorPoolStride ∧
    PoolingFunctionNew 1 6 .convolutional [(Dim.W, 10), (Dim.D, 3)]
        [(Dim.W, 0)] [(Dim.W, 2)] .max = .error .cnnErrorPoolSize := by
  have h10 : (10 : Nat) < U32MOD := by unfold U32MOD; omega
  refine ⟨?_, ?_, ?_⟩
  · exact ((C2_pooling_extents_and_limits 1 6 3 2 10 3 .max (Or.inl rfl)
      (by omega) (by omega) h10).1 (by omega)).1
  · exact (C2_pooling_extents_and_limits 1 6 3 7 10 3 .max (Or.inl rfl)
      (by omega) (by omega) h10).2.1 (by omega)
  · exact (C2_pooling_extents_and_limits 1 6 0 2 10 3 .max (Or.inl rfl)
      (by omega) (by omega) h10).2.2 (by omega)

/-- C3: the legacy creation path yields a null pooling function (with no
error) exactly when the descriptor's pool type is `INTEL_NO_POOLING`, and the
structured path yields a null pooling function exactly when the operation is
convolutional, the parameter-availability check passes, and the resolved
pooling mode (defaulting when absent) is `Disabled`; every other outcome is
either an error or a constructed object. -/
theorem C3_pooling_disabled_null (lo hi : Nat) (cnn : NnLayerConv)
    (apiOp : Gna2OperationPooling) (inputDims : Shape) (operation : NnOperation) :
    (PoolingFunctionCreateLegacy lo hi cnn inputDims .convolutional = .ok none ↔
      cnn.poolType = .noPooling) ∧
    (PoolingFunctionCreateApi lo hi apiOp inputDims operation = .ok none ↔
      (operation = .convolutional ∧ PoolingExpectValid apiOp = .ok () ∧
        apiOp.poolingMode.getD .disabled = .disabled)) := by
  constructor
  · cases htype : cnn.poolType
    · simp [PoolingFunctionCreateLegacy, htype]
    · simp only [PoolingFunctionCreateLegacy, htype]
      cases hpf : PoolingFunctionNew lo hi .convolutional inputDims
          [(Dim.W, cnn.nPoolSize)] [(Dim.W, cnn.nPoolStride)]
          (kernelModeOfNnPoolType .maxPool) <;> simp [hpf]
    · simp only [PoolingFunctionCreateLegacy, htype]
      cases hpf : PoolingFunctionNew lo hi .convolutional inputDims
          [(Dim.W, cnn.nPoolSize)] [(Dim.W, cnn.nPoolStride)]
          (kernelModeOfNnPoolType .sumPool) <;> simp [hpf]
  · by_cases hop : operation = NnOperation.convolutional
    case neg =>
      simp [PoolingFunctionCreateApi, hop]
    case pos =>
      subst hop
      simp only [PoolingFunctionCreateApi, if_pos rfl, ok_bind]
      cases hev : PoolingExpectValid apiOp with
      | error e => simp [hev]
      | ok u =>
        cases u
        simp only [ok_bind, true_and, hev]
        cases hm : apiOp.poolingMode.getD .disabled with
        | disabled =>
          simp [hm, executeForModelItem, expectInSet]
        | maxMode =>
          simp only [hm]
          cases hst : GetParameter apiOp.poolingStride with
          | error e => simp [hst]
          | ok stv =>
            cases hwi : GetParameter apiOp.poolingWindow with
            | error e => simp [hst, hwi]
            | ok wv =>
              cases hpf : PoolingFunctionNew lo hi .convolutional inputDims
                  [(Dim.W, wv)] [(Dim.W, stv)] (kernelModeOfApi .maxMode) <;>
                simp [hst, hwi, hpf]
        | sumMode =>
          simp only [hm]
          cases hst : GetParameter apiOp.poolingStride with
          | error e => simp [hst]
          | ok stv =>
            cases hwi : GetParameter apiOp.poolingWindow with
            | error e => simp [hst, hwi]
            | ok wv =>
              cases hpf : PoolingFunctionNew lo hi .convolutional inputDims
                  [(Dim.W, wv)] [(Dim.W, stv)] (kernelModeOfApi .sumMode) <;>
                simp [hst, hwi, hpf]
        | invalid raw =>
          simp [hm, executeForModelItem, expectInSet]

/-- Witness for C3: a descriptor with no pooling parameters at all yields
the null pooling function on the structured path, and a legacy descriptor
with `INTEL_NO_POOLING` yields it on the legacy path. -/
theorem C3_pooling_disabled_null_witness :
    PoolingFunctionCreateLegacy 1 6 ⟨.noPooling, 2, 3⟩ [(Dim.W, 10), (Dim.D, 3)]
        .convolutional = .ok none ∧
    PoolingFunctionCreateApi 1 6 ⟨none, none, none⟩ [(Dim.W, 10), (Dim.D, 3)]
        .convolutional = .ok none := by
  constructor
  · exact (C3_pooling_disabled_null 1 6 ⟨.noPooling, 2, 3⟩ ⟨none, none, none⟩
      [(Dim.W, 10), (Dim.D, 3)] .convolutional).1.mpr rfl
  · exact (C3_pooling_disabled_null 1 6 ⟨.noPooling, 2, 3⟩ ⟨none, none, none⟩
      [(Dim.W, 10), (Dim.D, 3)] .convolutional).2.mpr ⟨rfl, rfl, rfl⟩

/-- C10: if the pooling window or stride parameter is present then mode,
window and stride must all be available (a model-configuration error is
raised when any is missing); with neither window nor stride present the
availability check passes, and a missing pooling mode defaults to
`Disabled`, so creation returns the null pooling function. -/
theorem C10_pooling_parameter_availability (lo hi : Nat)
    (apiOp : Gna2OperationPooling) (inputDims : Shape) :
    ((apiOp.poolingWindow.isSome ∨ apiOp.poolingStride.isSome) →
      ((apiOp.poolingMode = none ∨ apiOp.poolingWindow = none ∨
          apiOp.poolingStride = none) →
        PoolingExpectValid apiOp = .error .modelConfigurationInvalid) ∧
      ((apiOp.poolingMode.isSome ∧ apiOp.poolingWindow.isSome ∧
          apiOp.poolingStride.isSome) →
        PoolingExpectValid apiOp = .ok ())) ∧
    ((apiOp.poolingWindow = none ∧ apiOp.poolingStride = none) →
      PoolingExpectValid apiOp = .ok () ∧
      (apiOp.poolingMode = none →
        PoolingFunctionCreateApi lo hi apiOp inputDims .convolutional =
          .ok none)) := by
  obtain ⟨m, w, s⟩ := apiOp
  constructor
  · intro hpresent
    constructor
    · intro hmissing
      cases m <;> cases w <;> cases s <;>
        simp_all [PoolingExpectValid, ExpectParameterAvailable]
    · rintro ⟨h1, h2, h3⟩
      cases m <;> cases w <;> cases s <;>
        simp_all [PoolingExpectValid, ExpectParameterAvailable]
  · rintro ⟨hw, hs⟩
    subst hw; subst hs
    refine ⟨by simp [PoolingExpectValid], ?_⟩
    intro hmode
    subst hmode
    simp [PoolingFunctionCreateApi, PoolingExpectValid, executeForModelItem,
      expectInSet]

/-- Witness for C10: with a window present but no mode the availability
check fails; with all three present it passes; with none present creation
returns the null pooling function. -/
theorem C10_pooling_parameter_availability_witness :
    PoolingExpectValid ⟨none, some 3, some 2⟩ =
      .error .modelConfigurationInvalid ∧
    PoolingExpectValid ⟨some .maxMode, some 3, some 2⟩ = .ok () ∧
    PoolingFunctionCreateApi 1 6 ⟨none, none, none⟩ [(Dim.W, 10), (Dim.D, 3)]
      .convolutional = .ok none := by
  refine ⟨?_, ?_, ?_⟩
  · exact ((C10_pooling_parameter_availability 1 6 ⟨none, some 3, some 2⟩
      []).1 (Or.inl rfl)).1 (Or.inl rfl)
  · exact ((C10_pooling_parameter_availability 1 6 ⟨some .maxMode, some 3, some 2⟩
      []).1 (Or.inl rfl)).2 ⟨rfl, rfl, rfl⟩
  · exact ((C10_pooling_parameter_availability 1 6 ⟨none, none, none⟩
      [(Dim.W, 10), (Dim.D, 3)]).2 ⟨rfl, rfl⟩).2 rfl

theorem C4_compute_dispatch_witness :
    AffineFunctionSingleCompute
      (fun m => if m = .avx2 then some 7 else none)
      (fun m => if m = .avx2 then some 9 else none)
      .sse4 (some ⟨[0, 2], 2⟩) = .error .notImplemented ∧
    AffineFunctionSingleCompute
      (fun m => if m = .avx2 then some 7 else none)
      (fun m => if m = .avx2 then some 9 else none)
      .avx2 none = .ok (.plain 7) := by
  constructor
  · exact (C4_compute_dispatch _ _ .sse4).1 ⟨[0, 2], 2⟩ (by decide)
  · exact (C4_compute_dispatch _ _ .avx2).2.2.2 7 (by decide)


/-- C5: re-querying a constructed transform's operands by role returns
exactly the descriptor's tensors (hence Shape and DataMode match the
original operands): weights and biases for both variants, plus the
weight-scale-factor tensor for the multi-bias variant when the descriptor
enables it; a role the variant does not own throws the "not present"
layer-configuration error. -/
theorem C5_get_operand_round_trip (cfg : OperationConfigM)
    (input output scales : Tensor) :
    (AffineFunctionGetOperand (createAffineSingleOperands cfg input output)
      WeightOperandIndex = .ok cfg.weightsTensor) ∧
    (AffineFunctionGetOperand (createAffineSingleOperands cfg input output)
      BiasOperandIndex = .ok cfg.biasesTensor) ∧
    (AffineFunctionGetOperand (createAffineSingleOperands cfg input output)
      WeightScaleFactorOperandIndex = .error .xnnErrorLyrCfg) ∧
    (cfg.weightScalesTensor = some scales →
      AffineFunctionMultiGetOperand (createAffineMultiOperands cfg input output)
        WeightScaleFactorOperandIndex = .ok scales) ∧
    (AffineFunctionMultiGetOperand (createAffineMultiOperands cfg input output)
      WeightOperandIndex = .ok cfg.weightsTensor) ∧
    (AffineFunctionMultiGetOperand (createAffineMultiOperands cfg input output)
      BiasOperandIndex = .ok cfg.biasesTensor) ∧
    (AffineFunctionMultiGetOperand (createAffineMultiOperands cfg input output)
      PwlOperandIndex = .error .xnnErrorLyrCfg) := by
  refine ⟨?_, ?_, ?_, ?_, ?_, ?_, ?_⟩
  · simp [AffineFunctionGetOperand, createAffineSingleOperands,
      GetOperandIfExistOrThrow, WeightOperandIndex]
  · simp [AffineFunctionGetOperand, createAffineSingleOperands,
      GetOperandIfExistOrThrow, WeightOperandIndex, BiasOperandIndex]
  · simp [AffineFunctionGetOperand, createAffineSingleOperands,
      TransformGetOperand, WeightOperandIndex, BiasOperandIndex,
      WeightScaleFactorOperandIndex, InputOperandIndex, OutputOperandIndex]
  · intro h
    simp [AffineFunctionMultiGetOperand, createAffineMultiOperands,
      GetOperandIfExistOrThrow, WeightScaleFactorOperandIndex, h]
  · simp [AffineFunctionMultiGetOperand, AffineFunctionGetOperand,
      createAffineMultiOperands, createAffineSingleOperands,
      GetOperandIfExistOrThrow, WeightOperandIndex,
      WeightScaleFactorOperandIndex]
  · simp [AffineFunctionMultiGetOperand, AffineFunctionGetOperand,
      createAffineMultiOperands, createAffineSingleOperands,
      GetOperandIfExistOrThrow, WeightOperandIndex, BiasOperandIndex,
      WeightScaleFactorOperandIndex]
  · simp [AffineFunctionMultiGetOperand, AffineFunctionGetOperand,
      createAffineMultiOperands, createAffineSingleOperands,
      TransformGetOperand, WeightOperandIndex, BiasOperandIndex,
      WeightScaleFactorOperandIndex, PwlOperandIndex, InputOperandIndex,
      OutputOperandIndex]

/-- Witness for C5 at concrete tensors: the multi-bias variant with an
enabled weight-scale tensor returns it by role. -/
theorem C5_get_operand_round_trip_witness :
    AffineFunctionMultiGetOperand
      (createAffineMultiOperands
        { weightsTensor := ⟨[(Dim.H, 8), (Dim.W, 16)], ⟨.int8, 1⟩⟩,
          biasesTensor := ⟨[(Dim.H, 8)], ⟨.int32, 4⟩⟩,
          weightScalesTensor := some ⟨[(Dim.H, 8)], ⟨.int32, 4⟩⟩ }
        ⟨[(Dim.H, 16), (Dim.W, 4)], ⟨.int16, 2⟩⟩
        ⟨[(Dim.H, 8), (Dim.W, 4)], ⟨.int32, 4⟩⟩)
      WeightScaleFactorOperandIndex = .ok ⟨[(Dim.H, 8)], ⟨.int32, 4⟩⟩ :=
  (C5_get_operand_round_trip
    { weightsTensor := ⟨[(Dim.H, 8), (Dim.W, 16)], ⟨.int8, 1⟩⟩,
      biasesTensor := ⟨[(Dim.H, 8)], ⟨.int32, 4⟩⟩,
      weightScalesTensor := some ⟨[(Dim.H, 8)], ⟨.int32, 4⟩⟩ }
    ⟨[(Dim.H, 16), (Dim.W, 4)], ⟨.int16, 2⟩⟩
    ⟨[(Dim.H, 8), (Dim.W, 4)], ⟨.int32, 4⟩⟩
    ⟨[(Dim.H, 8)], ⟨.int32, 4⟩⟩).2.2.2.1 rfl

/-- Helper: full characterization of the bounded memory-map retry loop,
generalized over the starting attempt index. -/
theorem memoryMapRetry_spec (visible : Nat → Bool) :
    ∀ (fuel start : Nat),
      ((∀ k, start ≤ k → k < start + fuel → visible k = false) →
        memoryMapRetry visible fuel start = .error .memoryMapError) ∧
      (∀ k, start ≤ k → k < start + fuel → visible k = true →
        (∀ j, start ≤ j → j < k → visible j = false) →
        memoryMapRetry visible fuel start = .ok k)
  | 0, start => by
    constructor
    · intro _; rfl
    · intro k hk1 hk2 _ _; omega
  | fuel + 1, start => by
    have ih := memoryMapRetry_spec visible fuel (start + 1)
    constructor
    · intro hall
      have h0 : visible start = false := hall start le_rfl (by omega)
      rw [memoryMapRetry, h0]
      simp only [Bool.false_eq_true, if_false]
      exact ih.1 fun k hk1 hk2 => hall k (by omega) (by omega)
    · intro k hk1 hk2 hvis hleast
      by_cases hks : k = start
      · subst hks
        rw [memoryMapRetry, hvis]
        simp
      · have h0 : visible start = false := hleast start le_rfl (by omega)
        rw [memoryMapRetry, h0]
        simp only [Bool.false_eq_true, if_false]
        exact ih.2 k (by omega) (by omega) hvis
          fun j hj1 hj2 => hleast j (by omega) hj2

/-- C6: the memory-map registration retry loop is bounded and
deterministic - it always terminates within the iteration bound (the loop
is a total function of its fuel), succeeds at the first attempt at which
the buffer has become visible when that happens within the bound, and
otherwise fails with the "memory not mapped" error. -/
theorem C6_memory_map_bounded_retry (visible : Nat → Bool) (bound k : Nat) :
    ((∀ j, j < bound → visible j = false) →
      memoryMapRetry visible bound 0 = .error .memoryMapError) ∧
    ((k < bound ∧ visible k = true ∧ ∀ j, j < k → visible j = false) →
      memoryMapRetry visible bound 0 = .ok k) := by
  constructor
  · intro h
    exact (memoryMapRetry_spec visible bound 0).1
      fun j hj1 hj2 => h j (by omega)
  · rintro ⟨h1, h2, h3⟩
    exact (memoryMapRetry_spec visible bound 0).2 k (Nat.zero_le k)
      (by omega) h2 fun j hj1 hj2 => h3 j hj2

/-- Witness for C6 with bound 3: a buffer that becomes visible at attempt 1
registers successfully at attempt 1; a buffer that never becomes visible
exhausts the bound with the "memory not mapped" error. -/
theorem C6_memory_map_bounded_retry_witness :
    memoryMapRetry (fun k => decide (1 ≤ k)) 3 0 = .ok 1 ∧
    memoryMapRetry (fun _ => false) 3 0 = .error .memoryMapError := by
  constructor
  · exact (C6_memory_map_bounded_retry (fun k => decide (1 ≤ k)) 3 1).2
      ⟨by omega, by decide, fun j hj => by
        have hj0 : j = 0 := by omega
        subst hj0; rfl⟩
  · exact (C6_memory_map_bounded_retry (fun _ => false) 3 0).1 fun j _ => rfl

/-- C7: `MemoryUnmap` raises no error for any table and id, is a no-op on
an id absent from the memory-mapping table, and applying it twice to the
same id leaves the table exactly as applying it once (idempotence). -/
theorem C7_memory_unmap_idempotent (table : MemoryMapTable) (memoryId : Nat) :
    (∀ e : GnaStatus, MemoryUnmap table memoryId ≠ .error e) ∧
    ((∀ entry ∈ table, entry.1 ≠ memoryId) →
      MemoryUnmap table memoryId = .ok table) ∧
    (∀ table2, MemoryUnmap table memoryId = .ok table2 →
      MemoryUnmap table2 memoryId = .ok table2) := by
  refine ⟨?_, ?_, ?_⟩
  · intro e
    simp [MemoryUnmap]
  · intro h
    unfold MemoryUnmap
    congr 1
    apply List.filter_eq_self.mpr
    intro a ha
    simpa using h a ha
  · intro table2 h
    have ht : table2 = table.filter (fun e => e.1 != memoryId) := by
      simpa [MemoryUnmap] using h.symm
    subst ht
    unfold MemoryUnmap
    congr 1
    apply List.filter_eq_self.mpr
    intro a ha
    exact (List.mem_filter.mp ha).2

/-- Witness for C7: unmapping an unknown id leaves a concrete table intact,
and unmapping id 1 twice gives the same table as unmapping it once. -/
theorem C7_memory_unmap_idempotent_witness :
    MemoryUnmap [(1, 10), (2, 20)] 3 = .ok [(1, 10), (2, 20)] ∧
    MemoryUnmap [(1, 10), (2, 20)] 1 = .ok [(2, 20)] ∧
    MemoryUnmap [(2, 20)] 1 = .ok [(2, 20)] := by
  refine ⟨?_, ?_, ?_⟩
  · exact (C7_memory_unmap_idempotent [(1, 10), (2, 20)] 3).2.1
      (by decide)
  · rfl
  · exact (C7_memory_unmap_idempotent [(1, 10), (2, 20)] 1).2.2 [(2, 20)] rfl

/-- C8: the device-handle wrapper's single-owner discipline - `Set`
succeeds exactly on the freshly constructed (invalid-sentinel) state and
fails with the identifier status once a handle is held; the destructor
closes the held handle exactly once when it is valid and not at all
otherwise; and once a real handle is held, no sequence of further `Set`
calls can ever change it (the sentinel-to-handle transition happens at most
once in a wrapper's lifetime).  (Deleted copy construction/assignment is a
C++ type-level property with no behavioral counterpart to state.) -/
theorem C8_winhandle_single_owner :
    (∀ h : Handle, WinHandleSet WinHandleInit h = .ok h) ∧
    (∀ (g : Nat) (h : Handle),
      WinHandleSet (.valid g) h = .error .identifierInvalid) ∧
    (∀ g : Nat, WinHandleDestroy (.valid g) = ([.valid g], .invalidHandleValue)) ∧
    (WinHandleDestroy .invalidHandleValue = ([], .invalidHandleValue)) ∧
    (∀ (g : Nat) (sets : List Handle), WinHandleRunSets (.valid g) sets = .valid g) := by
  refine ⟨?_, ?_, ?_, ?_, ?_⟩
  · intro h
    simp [WinHandleSet, WinHandleInit, expectEqual]
  · intro g h
    simp [WinHandleSet, expectEqual]
  · intro g
    simp [WinHandleDestroy]
  · simp [WinHandleDestroy]
  · intro g sets
    induction sets with
    | nil => rfl
    | cons h rest ih =>
      rw [WinHandleRunSets]
      have hfail : WinHandleSet (Handle.valid g) h = .error .identifierInvalid := by
        simp [WinHandleSet, expectEqual]
      rw [hfail]
      exact ih


/-- Helper: `wrap32` preserves the value mod `2^32`. -/
theorem wrap32_modEq (x : Int) : wrap32 x ≡ x [ZMOD (2 ^ 32)] := by
  unfold wrap32
  have h1 : (x + 2 ^ 31) % 2 ^ 32 ≡ x + 2 ^ 31 [ZMOD (2 ^ 32)] :=
    Int.emod_emod_of_dvd _ dvd_rfl
  have h2 := Int.ModEq.sub_right (2 ^ 31) h1
  rwa [add_sub_cancel_right] at h2

/-- Helper: congruent values wrap to the same 32-bit result. -/
theorem wrap32_congr {x y : Int} (h : x ≡ y [ZMOD (2 ^ 32)]) :
    wrap32 x = wrap32 y := by
  unfold wrap32
  have h2 : (x + 2 ^ 31) % 2 ^ 32 = (y + 2 ^ 31) % 2 ^ 32 :=
    Int.ModEq.add_right (2 ^ 31) h
  rw [h2]

/-- Helper: a finite sum of congruent terms is congruent. -/
theorem modEq_sum {I : Type} (s : Finset I) (f g : I → Int) (n : Int)
    (h : ∀ i ∈ s, f i ≡ g i [ZMOD n]) :
    (∑ i in s, f i) ≡ (∑ i in s, g i) [ZMOD n] := by
  classical
  induction s using Finset.induction_on with
  | empty =>
    rw [Finset.sum_empty, Finset.sum_empty]
  | @insert a t ha ih =>
    rw [Finset.sum_insert ha, Finset.sum_insert ha]
    exact (h a (Finset.mem_insert_self a t)).add
      (ih fun i hi => h i (Finset.mem_insert_of_mem hi))

/-- Helper: peel the first element of a dot product. -/
theorem dotProd_succ (x w : Nat → Int) (xOff wOff n : Nat) :
    dotProd x w xOff wOff (n + 1) =
      x xOff * w wOff + dotProd x w (xOff + 1) (wOff + 1) n := by
  unfold dotProd
  rw [Finset.sum_range_succ']
  have e : (∑ t in Finset.range n, x (xOff + (t + 1)) * w (wOff + (t + 1))) =
      ∑ t in Finset.range n, x (xOff + 1 + t) * w (wOff + 1 + t) := by
    apply Finset.sum_congr rfl
    intro t ht
    have h1 : xOff + (t + 1) = xOff + 1 + t := by omega
    have h2 : wOff + (t + 1) = wOff + 1 + t := by omega
    rw [h1, h2]
  rw [e, add_zero, add_zero]
  exact add_comm _ _

/-- Helper: split a dot product after its first `m` elements. -/
theorem dotProd_append (x w : Nat → Int) (xOff wOff m : Nat) :
    ∀ n, dotProd x w xOff wOff (m + n) =
      dotProd x w xOff wOff m + dotProd x w (xOff + m) (wOff + m) n
  | 0 => by simp [dotProd]
  | n + 1 => by
    have ih := dotProd_append x w xOff wOff m n
    have e0 : m + (n + 1) = m + n + 1 := rfl
    unfold dotProd at ih ⊢
    rw [e0, Finset.sum_range_succ, ih, Finset.sum_range_succ, add_assoc]
    have e1 : xOff + (m + n) = xOff + m + n := by omega
    have e2 : wOff + (m + n) = wOff + m + n := by omega
    rw [e1, e2]

/-- Helper: the eight madd lanes of one 16-element block sum to the exact
dot product of that block. -/
theorem fin8_pair_sum (x w : Nat → Int) (a b : Nat) :
    (∑ j : Fin 8, (x (a + 2 * j.val) * w (b + 2 * j.val) +
      x (a + 2 * j.val + 1) * w (b + 2 * j.val + 1))) =
      dotProd x w a b 16 := by
  rw [Fin.sum_univ_eq_sum_range (fun t => x (a + 2 * t) * w (b + 2 * t) +
    x (a + 2 * t + 1) * w (b + 2 * t + 1)) 8]
  unfold dotProd
  simp only [Finset.sum_range_succ, Finset.sum_range_zero]
  simp [Nat.add_assoc]
  ring


/-- Helper: the scalar remainder loop accumulates, mod `2^32`, the exact
dot product of the elements it visits. -/
theorem scalarLoop_modEq (x w : Nat → Int) :
    ∀ (n xOff wOff : Nat) (out : Int),
      scalarLoop x w xOff wOff n out ≡
        out + dotProd x w xOff wOff n [ZMOD (2 ^ 32)]
  | 0, xOff, wOff, out => by
    simp [scalarLoop, dotProd]
  | n + 1, xOff, wOff, out => by
    rw [scalarLoop]
    have ih := scalarLoop_modEq x w n (xOff + 1) (wOff + 1)
      (wrap32 (out + x xOff * w wOff))
    have step : wrap32 (out + x xOff * w wOff) +
        dotProd x w (xOff + 1) (wOff + 1) n ≡
        out + dotProd x w xOff wOff (n + 1) [ZMOD (2 ^ 32)] := by
      have h1 := Int.ModEq.add_right (dotProd x w (xOff + 1) (wOff + 1) n)
        (wrap32_modEq (out + x xOff * w wOff))
      have h2 : out + x xOff * w wOff + dotProd x w (xOff + 1) (wOff + 1) n =
          out + dotProd x w xOff wOff (n + 1) := by
        rw [dotProd_succ]
        ring
      exact h2 ▸ h1
    exact ih.trans step

/-- Helper: the 8-lane accumulator of the vectorized loop sums, mod `2^32`,
to the starting accumulator's sum plus the exact dot product of the
processed blocks. -/
theorem vecLoop_sum_modEq (x w : Nat → Int) (xOff wOff : Nat)
    (acc : Fin 8 → Int) :
    ∀ blocks : Nat,
      (∑ j : Fin 8, vecLoop x w xOff wOff acc blocks j) ≡
        (∑ j : Fin 8, acc j) + dotProd x w xOff wOff (16 * blocks)
          [ZMOD (2 ^ 32)]
  | 0 => by
    simp [vecLoop, dotProd]
  | b + 1 => by
    have ih := vecLoop_sum_modEq x w xOff wOff acc b
    rw [vecLoop]
    have h1 : (∑ j : Fin 8,
        vecBlockStep x w (xOff + 16 * b) (wOff + 16 * b)
          (vecLoop x w xOff wOff acc b) j) ≡
        (∑ j : Fin 8, (vecLoop x w xOff wOff acc b j +
          (x (xOff + 16 * b + 2 * j.val) * w (wOff + 16 * b + 2 * j.val) +
            x (xOff + 16 * b + 2 * j.val + 1) *
              w (wOff + 16 * b + 2 * j.val + 1)))) [ZMOD (2 ^ 32)] := by
      apply modEq_sum
      intro j _
      unfold vecBlockStep maddLane
      exact (wrap32_modEq _).trans (Int.ModEq.add_left _ (wrap32_modEq _))
    have h2 : (∑ j : Fin 8, (vecLoop x w xOff wOff acc b j +
        (x (xOff + 16 * b + 2 * j.val) * w (wOff + 16 * b + 2 * j.val) +
          x (xOff + 16 * b + 2 * j.val + 1) *
            w (wOff + 16 * b + 2 * j.val + 1)))) =
        (∑ j : Fin 8, vecLoop x w xOff wOff acc b j) +
          dotProd x w (xOff + 16 * b) (wOff + 16 * b) 16 := by
      rw [Finset.sum_add_distrib, fin8_pair_sum]
    have h3 := Int.ModEq.add_right
      (dotProd x w (xOff + 16 * b) (wOff + 16 * b) 16) ih
    have h4 : (∑ j : Fin 8, acc j) + dotProd x w xOff wOff (16 * b) +
        dotProd x w (xOff + 16 * b) (wOff + 16 * b) 16 =
        (∑ j : Fin 8, acc j) + dotProd x w xOff wOff (16 * (b + 1)) := by
      have e : 16 * (b + 1) = 16 * b + 16 := by ring
      rw [e, dotProd_append, add_assoc]
    exact h1.trans ((h2 ▸ h3).trans (h4 ▸ Int.ModEq.refl _))

/-- Helper: one outer-loop iteration, at the weight offsets the pointer
arithmetic reaches for output `i`, equals the claim's naive reference
value. -/
theorem recurrentIteration_eq_reference (cfg : RecurrentTransform) (i : Nat) :
    recurrentIteration cfg
      (i * (cfg.outputElementCount + cfg.inputElementCount))
      (cfg.inputElementCount +
        i * (cfg.outputElementCount + cfg.inputElementCount)) i =
      recurrentReference cfg i := by
  simp only [recurrentIteration, recurrentReference]
  set K := cfg.inputElementCount with hK
  set M := cfg.outputElementCount with hM
  set wOff := i * (M + K) with hwOff
  set w2Off := K + i * (M + K) with hw2Off
  apply wrap32_congr
  have hlanesIn := vecLoop_sum_modEq cfg.inputs cfg.weights1B 0 wOff
    (fun _ => 0) (K / 16)
  have hlanes := vecLoop_sum_modEq cfg.feedbackBuffer cfg.weights1B 0 w2Off
    (vecLoop cfg.inputs cfg.weights1B 0 wOff (fun _ => 0) (K / 16)) (M / 16)
  have hsum0 : (∑ _j : Fin 8, (0 : Int)) = 0 := by simp
  have hout0 := wrap32_modEq (∑ j : Fin 8,
    vecLoop cfg.feedbackBuffer cfg.weights1B 0 w2Off
      (vecLoop cfg.inputs cfg.weights1B 0 wOff (fun _ => 0) (K / 16))
      (M / 16) j)
  have hscalIn := scalarLoop_modEq cfg.inputs cfg.weights1B (K % 16)
    (K - K % 16) (wOff + (K - K % 16))
  have hscalFb := scalarLoop_modEq cfg.feedbackBuffer cfg.weights1B (M % 16)
    (M - M % 16) (w2Off + (M - M % 16))
  -- abbreviations for the four dot-product pieces
  set dIn16 := dotProd cfg.inputs cfg.weights1B 0 wOff (16 * (K / 16))
    with hdIn16
  set dFb16 := dotProd cfg.feedbackBuffer cfg.weights1B 0 w2Off
    (16 * (M / 16)) with hdFb16
  set dInRem := dotProd cfg.inputs cfg.weights1B (K - K % 16)
    (wOff + (K - K % 16)) (K % 16) with hdInRem
  set dFbRem := dotProd cfg.feedbackBuffer cfg.weights1B (M - M % 16)
    (w2Off + (M - M % 16)) (M % 16) with hdFbRem
  have key : scalarLoop cfg.feedbackBuffer cfg.weights1B (M - M % 16)
      (w2Off + (M - M % 16)) (M % 16)
      (scalarLoop cfg.inputs cfg.weights1B (K - K % 16)
        (wOff + (K - K % 16)) (K % 16)
        (vec_sum (vecLoop cfg.feedbackBuffer cfg.weights1B 0 w2Off
          (vecLoop cfg.inputs cfg.weights1B 0 wOff (fun _ => 0) (K / 16))
          (M / 16)))) ≡
      dIn16 + dFb16 + dInRem + dFbRem [ZMOD (2 ^ 32)] := by
    have s1 := hscalFb (scalarLoop cfg.inputs cfg.weights1B (K - K % 16)
      (wOff + (K - K % 16)) (K % 16)
      (vec_sum (vecLoop cfg.feedbackBuffer cfg.weights1B 0 w2Off
        (vecLoop cfg.inputs cfg.weights1B 0 wOff (fun _ => 0) (K / 16))
        (M / 16))))
    have s2 := Int.ModEq.add_right dFbRem (hscalIn
      (vec_sum (vecLoop cfg.feedbackBuffer cfg.weights1B 0 w2Off
        (vecLoop cfg.inputs cfg.weights1B 0 wOff (fun _ => 0) (K / 16))
        (M / 16))))
    have s3 : vec_sum (vecLoop cfg.feedbackBuffer cfg.weights1B 0 w2Off
        (vecLoop cfg.inputs cfg.weights1B 0 wOff (fun _ => 0) (K / 16))
        (M / 16)) ≡ dIn16 + dFb16 [ZMOD (2 ^ 32)] := by
      unfold vec_sum
      refine (wrap32_modEq _).trans (hlanes.trans ?_)
      have s4 := Int.ModEq.add_right dFb16 hlanesIn
      rw [hsum0, zero_add] at s4
      exact s4
    have s5 := Int.ModEq.add_right dFbRem (Int.ModEq.add_right dInRem s3)
    have e : dIn16 + dFb16 + dInRem + dFbRem =
        dIn16 + dFb16 + dInRem + dFbRem := rfl
    exact s1.trans (s2.trans s5)
  have hdotIn : dotProd cfg.inputs cfg.weights1B 0 wOff K = dIn16 + dInRem := by
    rw [hdIn16, hdInRem]
    have e1 : K = 16 * (K / 16) + K % 16 := by omega
    have e2 : 16 * (K / 16) = K - K % 16 := by omega
    calc dotProd cfg.inputs cfg.weights1B 0 wOff K
        = dotProd cfg.inputs cfg.weights1B 0 wOff (16 * (K / 16) + K % 16) := by
          rw [← e1]
      _ = dotProd cfg.inputs cfg.weights1B 0 wOff (16 * (K / 16)) +
          dotProd cfg.inputs cfg.weights1B (0 + 16 * (K / 16))
            (wOff + 16 * (K / 16)) (K % 16) := dotProd_append _ _ _ _ _ _
      _ = dotProd cfg.inputs cfg.weights1B 0 wOff (16 * (K / 16)) +
          dotProd cfg.inputs cfg.weights1B (K - K % 16)
            (wOff + (K - K % 16)) (K % 16) := by rw [zero_add, e2]
  have hdotFb : dotProd cfg.feedbackBuffer cfg.weights1B 0 w2Off M =
      dFb16 + dFbRem := by
    rw [hdFb16, hdFbRem]
    have e1 : M = 16 * (M / 16) + M % 16 := by omega
    have e2 : 16 * (M / 16) = M - M % 16 := by omega
    calc dotProd cfg.feedbackBuffer cfg.weights1B 0 w2Off M
        = dotProd cfg.feedbackBuffer cfg.weights1B 0 w2Off
            (16 * (M / 16) + M % 16) := by rw [← e1]
      _ = dotProd cfg.feedbackBuffer cfg.weights1B 0 w2Off (16 * (M / 16)) +
          dotProd cfg.feedbackBuffer cfg.weights1B (0 + 16 * (M / 16))
            (w2Off + 16 * (M / 16)) (M % 16) := dotProd_append _ _ _ _ _ _
      _ = dotProd cfg.feedbackBuffer cfg.weights1B 0 w2Off (16 * (M / 16)) +
          dotProd cfg.feedbackBuffer cfg.weights1B (M - M % 16)
            (w2Off + (M - M % 16)) (M % 16) := by rw [zero_add, e2]
  have final : scalarLoop cfg.feedbackBuffer cfg.weights1B (M - M % 16)
      (w2Off + (M - M % 16)) (M % 16)
      (scalarLoop cfg.inputs cfg.weights1B (K - K % 16)
        (wOff + (K - K % 16)) (K % 16)
        (vec_sum (vecLoop cfg.feedbackBuffer cfg.weights1B 0 w2Off
          (vecLoop cfg.inputs cfg.weights1B 0 wOff (fun _ => 0) (K / 16))
          (M / 16)))) ≡
      dotProd cfg.inputs cfg.weights1B 0 wOff K +
        dotProd cfg.feedbackBuffer cfg.weights1B 0 w2Off M [ZMOD (2 ^ 32)] := by
    have e : dIn16 + dFb16 + dInRem + dFbRem =
        dotProd cfg.inputs cfg.weights1B 0 wOff K +
          dotProd cfg.feedbackBuffer cfg.weights1B 0 w2Off M := by
      rw [hdotIn, hdotFb]
      ring
    exact key.trans (e ▸ Int.ModEq.refl _)
  exact Int.ModEq.add_right (cfg.biasBias i)
    (Int.ModEq.mul_right (cfg.biasMultiplier i) final)


/-- Helper: indexing the outer loop: entry `j` is the iteration at weight
offsets advanced by `j * LDA` and bias index advanced by `j`. -/
theorem recurrentOuterLoop_get (cfg : RecurrentTransform) :
    ∀ (n wOff w2Off i j : Nat), j < n →
      (recurrentOuterLoop cfg n wOff w2Off i).get? j =
        some (recurrentIteration cfg
          (wOff + j * (cfg.outputElementCount + cfg.inputElementCount))
          (w2Off + j * (cfg.outputElementCount + cfg.inputElementCount))
          (i + j))
  | 0, _, _, _, j, hj => absurd hj (Nat.not_lt_zero j)
  | n + 1, wOff, w2Off, i, 0, _ => by
    rw [recurrentOuterLoop]
    simp
  | n + 1, wOff, w2Off, i, j + 1, hj => by
    rw [recurrentOuterLoop]
    rw [List.get?_cons_succ]
    rw [recurrentOuterLoop_get cfg n _ _ _ j (by omega)]
    have e1 : wOff + (cfg.outputElementCount + cfg.inputElementCount) +
        j * (cfg.outputElementCount + cfg.inputElementCount) =
        wOff + (j + 1) * (cfg.outputElementCount + cfg.inputElementCount) := by
      ring
    have e2 : w2Off + (cfg.outputElementCount + cfg.inputElementCount) +
        j * (cfg.outputElementCount + cfg.inputElementCount) =
        w2Off + (j + 1) * (cfg.outputElementCount + cfg.inputElementCount) := by
      ring
    have e3 : i + 1 + j = i + (j + 1) := by ring
    rw [e1, e2, e3]

/-- C9: for every recurrent configuration (any input and output element
counts, divisible by 16 or not) the AVX2 `RecurrentKernelImpl1B` - the
16-element vectorized loops over input and feedback plus the scalar
remainder loops - produces at each output index `i` exactly the naive
reference value `(dot(input, weightRow_i) + dot(feedback,
feedbackWeightRow_i)) * bias[i].multiplier + bias[i].bias` in wrapping
32-bit arithmetic, with weight rows advancing by
`LDA = outputElementCount + inputElementCount`. -/
theorem C9_recurrent_kernel_matches_reference (cfg : RecurrentTransform)
    (i : Nat) (hi : i < cfg.outputElementCount) :
    (RecurrentKernelImpl1B cfg).get? i = some (recurrentReference cfg i) := by
  unfold RecurrentKernelImpl1B
  rw [recurrentOuterLoop_get cfg cfg.outputElementCount 0
    cfg.inputElementCount 0 i hi]
  rw [zero_add, zero_add]
  rw [recurrentIteration_eq_reference]

/-- Witness for C9 on a concrete transform with 17 inputs and 2 outputs
(exercising one vectorized block plus a 1-element scalar remainder on the
input side and a pure scalar remainder on the feedback side). -/
theorem C9_recurrent_kernel_matches_reference_witness :
    1 < exampleRecurrentTransform.outputElementCount ∧
    (RecurrentKernelImpl1B exampleRecurrentTransform).get? 1 =
      some (recurrentReference exampleRecurrentTransform 1) :=
  ⟨by decide,
    C9_recurrent_kernel_matches_reference exampleRecurrentTransform 1
      (by decide)⟩

end Gna
